import Mathlib

/-!
Shallow embedding of the indexing / interpolation / windowing core of the
alpha-visualizer repository (src/config.py, src/data_processor.py,
src/visualizer.py).

A pandas DataFrame is modelled as a list of (index label, row) pairs:
`read_csv` produces a RangeIndex, so labels start as 0,1,2,…; `sort_values`
reorders the rows but keeps the original labels (the source never calls
`reset_index`).  `iloc[i]` is positional access, `loc[l]` is label access
(a missing label raises KeyError, modelled as `none` where the source
catches the exception).  `Series.idxmin` / `Series.idxmax` return the index
LABEL of the first extremal entry in row order.  Numeric cell values are
modelled as ℚ.  Caught exceptions that make a function return an empty
`pd.Series()` are modelled as `Option.none`.
-/

namespace AlphaVisualizer

/-! ### config.py -/

/-- config.py: `BLOCKS_PER_DAY = 14400`. -/
def BLOCKS_PER_DAY : ℚ := 14400

/-- config.py: `CHART_WINDOW_SIZE = 15000`. -/
def CHART_WINDOW_SIZE : ℕ := 15000

/-- config.py: `MAX_DATA_POINTS_PER_CHART = 40`. -/
def MAX_DATA_POINTS_PER_CHART : ℕ := 40

/-! ### Python numeric primitives -/

/-- Python `int(x)` on a real value: truncation toward zero. -/
def pyInt (q : ℚ) : ℤ := if 0 ≤ q then ⌊q⌋ else ⌈q⌉

/-- Python `round(x)`: nearest integer, ties to even (banker's rounding). -/
def pyRound (q : ℚ) : ℤ :=
  if q - ⌊q⌋ = 1 / 2 then (if 2 ∣ ⌊q⌋ then ⌊q⌋ else ⌊q⌋ + 1) else round q

/-! ### Data model -/

/-- One row of the CSV read by `load_data` (the required columns of
data_processor.py, lines 42-46). -/
structure RawRow where
  block : ℚ
  network_rate : ℚ
  generation_rate : ℚ
  exchange_rate : ℚ
  warehouse_capacity : ℚ
  AlphaPoints_per_block_in : ℚ
  AlphaPoints_per_block_out : ℚ
  token_price : ℚ
deriving DecidableEq

/-- A row after preprocessing in `load_data`: the CSV columns plus the
derived `day` (line 53) and `net_alpha_points_flow` (line 57) columns. -/
structure Row where
  block : ℚ
  network_rate : ℚ
  generation_rate : ℚ
  exchange_rate : ℚ
  warehouse_capacity : ℚ
  AlphaPoints_per_block_in : ℚ
  AlphaPoints_per_block_out : ℚ
  token_price : ℚ
  day : ℤ
  net_alpha_points_flow : ℚ
deriving DecidableEq

/-- data_processor.py lines 53 and 57:
`data['day'] = data['block'] // BLOCKS_PER_DAY` and
`data['net_alpha_points_flow'] = in - out`. -/
def rowOfRaw (r : RawRow) : Row :=
  { block := r.block
    network_rate := r.network_rate
    generation_rate := r.generation_rate
    exchange_rate := r.exchange_rate
    warehouse_capacity := r.warehouse_capacity
    AlphaPoints_per_block_in := r.AlphaPoints_per_block_in
    AlphaPoints_per_block_out := r.AlphaPoints_per_block_out
    token_price := r.token_price
    day := ⌊r.block / BLOCKS_PER_DAY⌋
    net_alpha_points_flow :=
      r.AlphaPoints_per_block_in - r.AlphaPoints_per_block_out }

/-- A DataFrame: rows in their current order, each carrying its pandas
index label. -/
abbrev DFrame := List (ℕ × Row)

/-- A loaded DataFrame together with `data.attrs['block_interval']`. -/
structure PFrame where
  rows : DFrame
  interval : ℚ
deriving DecidableEq

/-- Placeholder row used only to give the positional accessor a total type;
every access in the claims is in bounds. -/
def rowZero : Row := rowOfRaw ⟨0, 0, 0, 0, 0, 0, 0, 0⟩

/-- `data.iloc[i]` for a nonnegative position known to be in bounds. -/
def dfGet (df : DFrame) (i : ℕ) : Row := (df.getD i (0, rowZero)).2

/-- `data.iloc[i]` with Python semantics for an arbitrary integer
position: a negative position wraps from the end; out of bounds is an
IndexError, modelled as `none`. -/
def ilocZ (df : DFrame) (i : ℤ) : Option Row :=
  let j : ℤ := if i < 0 then (df.length : ℤ) + i else i
  if j < 0 then none else (df[j.toNat]?).map (fun p => p.2)

/-- `data.loc[l]`: label access; a missing label is a KeyError, modelled
as `none`. -/
def locGet (df : DFrame) (lbl : ℕ) : Option Row :=
  (df.find? (fun p => decide (p.1 = lbl))).map (fun p => p.2)

/-- Fold underlying `Series.idxmin` on `(df['block'] - t).abs()`: keeps the
first row (in current row order) whose block is strictly closest to `t`. -/
def minAbsPair (t : ℚ) : ℕ × Row → DFrame → ℕ × Row
  | best, [] => best
  | best, p :: rest =>
      if |p.2.block - t| < |best.2.block - t| then minAbsPair t p rest
      else minAbsPair t best rest

/-- `(df['block'] - t).abs().idxmin()`: the index LABEL of the first row
minimizing `|block - t|` (pandas idxmin returns a label, not a position). -/
def idxminAbs (df : DFrame) (t : ℚ) : ℕ :=
  match df with
  | [] => 0
  | p :: rest => (minAbsPair t p rest).1

/-- The specification's exhaustive linear scan: the first row of the
dataset minimizing `|block - t|` (`none` on an empty dataset). -/
def exhaustiveNearest (df : DFrame) (t : ℚ) : Option Row :=
  match df with
  | [] => none
  | p :: rest => some (minAbsPair t p rest).2

/-! ### data_processor.py: load_data (lines 36-84, success path)

File-existence checks and the read_csv exception path (lines 19-33, 85-94)
return a bare empty DataFrame and are out of the claims' scope; the model
starts from the successfully parsed rows.  `pd.read_csv` gives the rows a
dense RangeIndex 0,1,2,…; `sort_values('block')` (line 73) reorders the
rows but keeps those labels.  The interval estimate (lines 71-82) is the
mode of consecutive block differences, smallest value on ties (pandas
`Series.mode()` sorts ascending and line 76 takes `.iloc[0]`), defaulting
to 1000. -/

/-- Comparison used by `sort_values('block')`. -/
def blockLE (p q : ℕ × Row) : Prop := p.2.block ≤ q.2.block

instance : DecidableRel blockLE :=
  fun p q => inferInstanceAs (Decidable (p.2.block ≤ q.2.block))

instance : IsTotal (ℕ × Row) blockLE := ⟨fun p q => le_total p.2.block q.2.block⟩

instance : IsTrans (ℕ × Row) blockLE := ⟨fun _ _ _ h1 h2 => le_trans h1 h2⟩

/-- `data['block'].diff().dropna()`: consecutive differences. -/
def consecDiffs : List ℚ → List ℚ
  | a :: b :: rest => (b - a) :: consecDiffs (b :: rest)
  | _ => []

/-- Occurrence count of `x` in `l`. -/
def countQ (l : List ℚ) (x : ℚ) : ℕ := l.countP (fun y => decide (y = x))

/-- `l.mode().iloc[0]`: the most frequent value, smallest on ties. -/
def modeSmallest (l : List ℚ) : ℚ :=
  l.foldl
    (fun best x =>
      if countQ l x > countQ l best ∨ (countQ l x = countQ l best ∧ x < best)
      then x else best)
    (l.headD 0)

/-- data_processor.py `load_data`, success path.  pandas `sort_values`
uses an unstable quicksort; it is modelled by `List.insertionSort`, which
agrees with it on any dataset without duplicate block values. -/
def load_data (raws : List RawRow) : PFrame :=
  let rows : DFrame := raws.enum.map (fun p => (p.1, rowOfRaw p.2))
  if 1 < rows.length then
    let sorted := List.insertionSort blockLE rows
    let diffs := consecDiffs (sorted.map (fun p => p.2.block))
    let interval := if 0 < diffs.length then modeSmallest diffs else 1000
    ⟨sorted, interval⟩
  else ⟨rows, 1000⟩

/-! ### data_processor.py: get_frame_data (lines 96-130) -/

/-- data_processor.py `get_frame_data`.  `none` models the empty
`pd.Series()` returned for an empty dataset (line 104) or by the `except`
branch (line 130) when `data.loc[idx]` raises KeyError.  Line 121 computes
`idx = start_idx + (data.iloc[start_idx:end_idx]['block'] - current_block)
.abs().idxmin()`, where `idxmin` yields the absolute index label of the
neighborhood's best row, and line 125 returns `data.loc[idx]`. -/
def get_frame_data (df : DFrame) (interval : ℚ) (current_block : ℚ) :
    Option Row :=
  if df.length = 0 then none
  else
    let approx : ℕ :=
      (max 0 (min (pyInt (current_block / interval)) ((df.length : ℤ) - 1))).toNat
    if |(dfGet df approx).block - current_block| > interval * 2 then
      locGet df (idxminAbs df current_block)
    else
      let start_idx := approx - 2
      let end_idx := min df.length (approx + 3)
      let sub := (df.drop start_idx).take (end_idx - start_idx)
      locGet df (start_idx + idxminAbs sub current_block)

/-! ### data_processor.py: interpolate_data (lines 132-229) -/

/-- `(search_subset['block'] <= current_block)[::-1].idxmax()`: the index
LABEL of the last row (in subset order) with `block ≤ t`; when no row
qualifies, idxmax of the all-False reversed mask is the label of its first
entry, i.e. the subset's last row. -/
def revIdxmaxLE (sub : DFrame) (t : ℚ) : ℕ :=
  match sub.reverse.find? (fun p => decide (p.2.block ≤ t)) with
  | some p => p.1
  | none =>
    match sub.reverse with
    | [] => 0
    | p :: _ => p.1

/-- The bracket search of `interpolate_data` (lines 143-186): returns
`(idx_before, idx_after)`.  Only evaluated by callers on datasets with at
least 2 rows.  Lines 163 and 178 add `search_start` to an absolute index
label produced by `idxmax`. -/
def bracket_idx (df : DFrame) (interval : ℚ) (t : ℚ) : ℕ × ℕ :=
  let n := df.length
  let a0 : ℤ := pyInt (t / interval)
  let a1 : ℤ := if a0 ≥ (n : ℤ) then (n : ℤ) - 1 else a0
  let approx : ℕ := (max 0 a1).toNat
  let actual := (dfGet df approx).block
  let idx_before : ℕ :=
    if actual > t then
      let search_start := approx - 5
      let sub := (df.drop search_start).take (approx - search_start)
      if 0 < sub.length then search_start + revIdxmaxLE sub t else 0
    else if actual < t then
      if approx + 1 < n ∧ (dfGet df (approx + 1)).block > t then approx
      else
        let search_start := approx
        let search_end := min n (approx + 5)
        let sub := (df.drop search_start).take (search_end - search_start)
        if sub.any (fun p => decide (p.2.block ≤ t)) then
          search_start + revIdxmaxLE sub t
        else min (n - 2) search_start
    else approx
  (idx_before, min (n - 1) (idx_before + 1))

/-- Lines 202-221: the linear blend of every column except `block` and
`day`, with `block` set to the target exactly and `day` recomputed by the
construction rule `current_block // BLOCKS_PER_DAY`. -/
def interpFields (before after : Row) (factor : ℚ) (t : ℚ) : Row :=
  { network_rate :=
      before.network_rate + factor * (after.network_rate - before.network_rate)
    generation_rate :=
      before.generation_rate +
        factor * (after.generation_rate - before.generation_rate)
    exchange_rate :=
      before.exchange_rate + factor * (after.exchange_rate - before.exchange_rate)
    warehouse_capacity :=
      before.warehouse_capacity +
        factor * (after.warehouse_capacity - before.warehouse_capacity)
    AlphaPoints_per_block_in :=
      before.AlphaPoints_per_block_in +
        factor * (after.AlphaPoints_per_block_in - before.AlphaPoints_per_block_in)
    AlphaPoints_per_block_out :=
      before.AlphaPoints_per_block_out +
        factor *
          (after.AlphaPoints_per_block_out - before.AlphaPoints_per_block_out)
    token_price :=
      before.token_price + factor * (after.token_price - before.token_price)
    net_alpha_points_flow :=
      before.net_alpha_points_flow +
        factor * (after.net_alpha_points_flow - before.net_alpha_points_flow)
    block := t
    day := ⌊t / BLOCKS_PER_DAY⌋ }

/-- Lines 202-221 as one step: factor computation (0 when the bracketing
blocks coincide, line 204) followed by the blend. -/
def blendAt (before after : Row) (t : ℚ) : Row :=
  let factor : ℚ :=
    if after.block = before.block then 0
    else (t - before.block) / (after.block - before.block)
  interpFields before after factor t

/-- The columns that lines 216-218 blend (every column except `block` and
`day`). -/
def blendedFields (r : Row) : List ℚ :=
  [r.network_rate, r.generation_rate, r.exchange_rate, r.warehouse_capacity,
   r.AlphaPoints_per_block_in, r.AlphaPoints_per_block_out, r.token_price,
   r.net_alpha_points_flow]

/-- data_processor.py `interpolate_data`.  With ≤ 1 rows it returns the
empty sentinel or the single row (line 139).  The guards at lines 189 and
192 are unreachable (`idx_before` is built from ℕ operations and
`idx_after = min(n-1, idx_before+1)`); the one remaining failure is
`data.iloc[idx_before]` at lines 197/211 overrunning the frame, whose
IndexError is caught at line 224 and answered by the `get_frame_data`
fallback (line 229). -/
def interpolate_data (df : DFrame) (interval : ℚ) (t : ℚ) : Option Row :=
  if df.length = 0 then none
  else if df.length = 1 then some (dfGet df 0)
  else if (bracket_idx df interval t).1 < df.length then
    some (blendAt (dfGet df (bracket_idx df interval t).1)
      (dfGet df (bracket_idx df interval t).2) t)
  else get_frame_data df interval t

/-! ### visualizer.py: find_current_value (lines 157-179) -/

/-- visualizer.py `find_current_value`.  The whole body sits in a
try/except returning `None` (line 179); the only raising statements are
the `iloc` accesses, so an out-of-bounds `iloc` yields `none`.  Line 162
rounds the approximate position; line 167 replaces it by the `idxmin`
LABEL when the guess is farther than two intervals; lines 169-174 read the
marker row positionally and return its block and charted value. -/
def find_current_value (df : DFrame) (interval : ℚ) (current_block : ℚ)
    (col : Row → ℚ) : Option (ℚ × ℚ) :=
  (ilocZ df (min ((df.length : ℤ) - 1)
      (max 0 (pyRound (current_block / interval))))).bind fun row0 =>
    (ilocZ df
        (if |row0.block - current_block| > interval * 2 then
          (idxminAbs df current_block : ℤ)
        else
          min ((df.length : ℤ) - 1)
            (max 0 (pyRound (current_block / interval))))).map
      fun row => (row.block, col row)

/-! ### visualizer.py: optimize_chart_data (lines 119-155) -/

/-- Python slice semantics `l[a:b]` for integer bounds (used by
`data_slice.iloc[start_idx:end_idx]`): negative bounds wrap from the end,
then both are clamped to the list. -/
def sliceZ (df : DFrame) (a b : ℤ) : DFrame :=
  let n : ℤ := df.length
  let a' : ℕ := (if a < 0 then max 0 (n + a) else min a n).toNat
  let b' : ℕ := (if b < 0 then max 0 (n + b) else min b n).toNat
  (df.take b').drop a'

/-- `l.iloc[::n]` (keep positions 0, n, 2n, …), written with an explicit
fuel so it computes by structural recursion; `everyNth` instantiates the
fuel with the list length. -/
def everyNthF {α : Type} : ℕ → List α → ℕ → List α
  | 0, _, _ => []
  | _ + 1, [], _ => []
  | fuel + 1, a :: rest, n => a :: everyNthF fuel (rest.drop (n - 1)) n

/-- `l.iloc[::n]` for a positive stride `n`. -/
def everyNth {α : Type} (l : List α) (n : ℕ) : List α := everyNthF l.length l n

/-- visualizer.py lines 141-146: systematic downsampling.  When the window
holds more than `MAX_DATA_POINTS_PER_CHART` rows, keep every `n`-th row
with `n = len(window_data) // MAX_DATA_POINTS_PER_CHART`. -/
def downsample (w : DFrame) : DFrame :=
  if w.length > MAX_DATA_POINTS_PER_CHART then
    everyNth w (w.length / MAX_DATA_POINTS_PER_CHART)
  else w

/-- The bundle returned by `optimize_chart_data` (lines 150-155). -/
structure WindowResult where
  window_data : DFrame
  start_block : ℚ
  end_block : ℚ
  current_value : Option (ℚ × ℚ)

/-- visualizer.py `optimize_chart_data`: window bounds (lines 124-126),
approximate index slice (lines 131-136), exact range filter (line 139),
downsampling (lines 141-146) and the marker value (line 154). -/
def optimize_chart_data (df : DFrame) (interval : ℚ)
    (current_block max_block : ℚ) (col : Row → ℚ) : WindowResult :=
  let start_block : ℚ := max 0 (current_block - ((CHART_WINDOW_SIZE / 2 : ℕ) : ℚ))
  let end_block : ℚ := min max_block (current_block + ((CHART_WINDOW_SIZE / 2 : ℕ) : ℚ))
  let start_idx : ℤ := max 0 (pyInt (start_block / interval) - 1)
  let end_idx : ℤ := min (df.length : ℤ) (pyInt (end_block / interval) + 2)
  let data_subset := sliceZ df start_idx end_idx
  let window_data :=
    data_subset.filter
      (fun p => decide (start_block ≤ p.2.block ∧ p.2.block ≤ end_block))
  { window_data := downsample window_data
    start_block := start_block
    end_block := end_block
    current_value := find_current_value df interval current_block col }

/-! ### Concrete datasets used by the counterexample theorems -/

/-- A raw CSV row holding the given block and zeroes elsewhere. -/
def mkRaw (b : ℚ) : RawRow := ⟨b, 0, 0, 0, 0, 0, 0, 0⟩

/-- Ten rows at blocks 0, 1000, …, 9000. -/
def raws10 : List RawRow := (List.range 10).map (fun i => mkRaw (1000 * i))

/-- Seven rows at blocks 0, 1000, …, 6000. -/
def raws7 : List RawRow := (List.range 7).map (fun i => mkRaw (1000 * i))

/-- Eleven rows at blocks 1000, 2000, …, 11000. -/
def raws11 : List RawRow := (List.range 11).map (fun i => mkRaw (1000 * (i + 1)))

/-- Two rows whose blocks arrive out of order: 1000 then 0. -/
def raws2 : List RawRow := [mkRaw 1000, mkRaw 0]

/-- 76 rows at blocks 0, 200, …, 15000. -/
def raws76 : List RawRow := (List.range 76).map (fun i => mkRaw (200 * i))

/-- A raw row with block 0 and pairwise different metric values. -/
def wRawA : RawRow := ⟨0, 1, 2, 3, 4, 5, 6, 7⟩

/-- A raw row with block 1000 and pairwise different metric values. -/
def wRawB : RawRow := ⟨1000, 8, 9, 10, 11, 12, 13, 14⟩

/-- A one-row frame at block 100. -/
def df1W : DFrame := [(0, rowOfRaw (mkRaw 100))]

/-- A two-row, block-sorted window. -/
def w2W : DFrame := [(0, rowOfRaw (mkRaw 0)), (1, rowOfRaw (mkRaw 100))]

/-! ### Helper lemmas -/

/-- A list with at most one element is sorted under any relation. -/
theorem sorted_of_length_le_one {α : Type} {r : α → α → Prop} {l : List α}
    (h : l.length ≤ 1) : l.Sorted r := by
  match l, h with
  | [], _ => exact List.sorted_nil
  | [a], _ => exact List.sorted_singleton a

/-- `everyNthF` only ever selects elements of its input list. -/
theorem everyNthF_sublist {α : Type} :
    ∀ (fuel : ℕ) (l : List α) (n : ℕ), List.Sublist (everyNthF fuel l n) l := by
  intro fuel
  induction fuel with
  | zero => intro l n; exact List.nil_sublist l
  | succ f ih =>
    intro l n
    match l with
    | [] => exact List.nil_sublist []
    | a :: rest =>
      show List.Sublist (a :: everyNthF f (rest.drop (n - 1)) n) (a :: rest)
      exact List.Sublist.cons₂ a
        ((ih (rest.drop (n - 1)) n).trans (List.drop_sublist (n - 1) rest))

/-- Stride selection returns a sublist of the window. -/
theorem everyNth_sublist {α : Type} (l : List α) (n : ℕ) :
    List.Sublist (everyNth l n) l :=
  everyNthF_sublist l.length l n

/-- The downsampled window is a sublist of the window it was cut from. -/
theorem downsample_sublist (w : DFrame) : List.Sublist (downsample w) w := by
  unfold downsample
  split
  · exact everyNth_sublist w (w.length / MAX_DATA_POINTS_PER_CHART)
  · exact List.Sublist.refl w

/-- Size bounds for `everyNthF` with positive stride and enough fuel:
the selection covers the list (`l.length ≤ n * length`) and, when the list
is nonempty, all but the last selected element lie a full stride apart
(`n * (length - 1) < l.length`). -/
theorem everyNthF_length_bounds {α : Type} :
    ∀ (fuel : ℕ) (l : List α) (n : ℕ), 1 ≤ n → l.length ≤ fuel →
      l.length ≤ n * (everyNthF fuel l n).length ∧
        (0 < l.length → n * ((everyNthF fuel l n).length - 1) < l.length) := by
  intro fuel
  induction fuel with
  | zero =>
    intro l n _ hf
    have h0 : l.length = 0 := Nat.le_zero.mp hf
    exact ⟨by rw [h0]; exact Nat.zero_le _, fun h => absurd h (by omega)⟩
  | succ f ih =>
    intro l n hn hf
    match l with
    | [] =>
      refine ⟨Nat.zero_le _, fun h => absurd h (by simp)⟩
    | a :: rest =>
      have hstep : everyNthF (f + 1) (a :: rest) n =
          a :: everyNthF f (rest.drop (n - 1)) n := rfl
      have hf' : (rest.drop (n - 1)).length ≤ f := by
        rw [List.length_drop]
        simp only [List.length_cons] at hf
        omega
      obtain ⟨ih1, ih2⟩ := ih (rest.drop (n - 1)) n hn hf'
      rw [hstep]
      simp only [List.length_cons, List.length_drop] at ih1 ih2 ⊢
      by_cases hz : rest.length ≤ n - 1
      · have hd : rest.drop (n - 1) = [] := by
          apply List.eq_nil_of_length_eq_zero
          rw [List.length_drop]
          omega
        have hc0 : (everyNthF f (rest.drop (n - 1)) n).length = 0 := by
          rw [hd]; cases f <;> rfl
        rw [hc0]
        refine ⟨?_, fun _ => ?_⟩
        · have hm : n * (0 + 1) = n := by ring
          omega
        · have hm : n * (0 + 1 - 1) = 0 := by norm_num
          omega
      · have hz' : 0 < rest.length - (n - 1) := by omega
        have ih2' := ih2 hz'
        have hc1 : 1 ≤ (everyNthF f (rest.drop (n - 1)) n).length := by
          by_contra hcon
          push_neg at hcon
          have hc0 : (everyNthF f (rest.drop (n - 1)) n).length = 0 := by omega
          rw [hc0, Nat.mul_zero] at ih1
          omega
        generalize hc : (everyNthF f (rest.drop (n - 1)) n).length = c
          at ih1 ih2' hc1 ⊢
        refine ⟨?_, fun _ => ?_⟩
        · have hm : n * (c + 1) = n * c + n := by ring
          omega
        · have hm : n * (c + 1 - 1) = n * (c - 1) + n := by
            have h1 : c + 1 - 1 = (c - 1) + 1 := by omega
            rw [h1, Nat.mul_add, Nat.mul_one]
          omega

/-- Size bounds for `everyNth` with positive stride. -/
theorem everyNth_length_bounds {α : Type} (l : List α) (n : ℕ) (hn : 1 ≤ n) :
    l.length ≤ n * (everyNth l n).length ∧
      (0 < l.length → n * ((everyNth l n).length - 1) < l.length) :=
  everyNthF_length_bounds l.length l n hn le_rfl

/-- `ilocZ` on an empty frame is an IndexError for every position. -/
theorem ilocZ_nil (z : ℤ) : ilocZ ([] : DFrame) z = none := by
  simp only [ilocZ, List.length_nil, List.getElem?_nil, Option.map_none',
    ite_self]

/-- `find_current_value` on an empty frame hits an IndexError and returns
`None` through its except branch, for every interval and target. -/
theorem find_current_value_nil (interval t : ℚ) (col : Row → ℚ) :
    find_current_value ([] : DFrame) interval t col = none := by
  simp only [find_current_value, ilocZ_nil, Option.none_bind]

/-- Unfolding `everyNth` one step on a nonempty list. -/
theorem everyNth_cons {α : Type} (a : α) (t : List α) (n : ℕ) :
    everyNth (a :: t) n = a :: everyNthF t.length (t.drop (n - 1)) n := rfl

/-! ### Claim theorems -/

/-- Claim C1 (code bug, witnessed failure): on the dataset loaded from ten
rows at blocks 0, 1000, …, 9000 (detected interval 1000) and the in-range
target 5000, the exhaustive linear scan finds the row at block 5000, but
`get_frame_data`'s fast path returns the row at block 8000: line 121 adds
`start_idx = 3` to the absolute index label 5 produced by `idxmin` and
line 125 then fetches `data.loc[8]`. -/
theorem get_frame_data_fast_path_mismatch :
    get_frame_data (load_data raws10).rows (load_data raws10).interval 5000 =
        some (rowOfRaw (mkRaw 8000)) ∧
      exhaustiveNearest (load_data raws10).rows 5000 =
        some (rowOfRaw (mkRaw 5000)) ∧
      rowOfRaw (mkRaw 8000) ≠ rowOfRaw (mkRaw 5000) := by
  refine ⟨by decide!, by decide!, by decide!⟩

/-- Claim C3 (code bug, witnessed failure): on the dataset loaded from
seven rows at blocks 0, 1000, …, 6000 and the in-range target 5000,
`get_frame_data` returns the empty sentinel even though the dataset is
non-empty: the fast path computes `idx = 3 + 5 = 8`, `data.loc[8]` raises
KeyError, and the except branch at line 130 returns an empty Series. -/
theorem get_frame_data_empty_sentinel_on_nonempty :
    (load_data raws7).rows.length = 7 ∧
      get_frame_data (load_data raws7).rows (load_data raws7).interval 5000 =
        none := by
  refine ⟨by decide!, by decide!⟩

/-- Claim C5 (code bug, witnessed failure): on the dataset loaded from
eleven rows at blocks 1000, 2000, …, 11000 (detected interval 1000) and
the in-range target 6500, the bracket search returns
`(idx_before, idx_after) = (6, 7)`, whose before-row has block 7000 >
6500: line 163 adds `search_start = 1` to the absolute index label 5
produced by `idxmax`.  A correct bracket would be (5, 6). -/
theorem bracket_search_not_bracketing :
    bracket_idx (load_data raws11).rows (load_data raws11).interval 6500 =
        (6, 7) ∧
      (dfGet (load_data raws11).rows 6).block = 7000 ∧
      ¬ (dfGet (load_data raws11).rows 6).block ≤ 6500 ∧
      (dfGet (load_data raws11).rows 0).block ≤ 6500 ∧
      (6500 : ℚ) ≤ (dfGet (load_data raws11).rows 10).block := by
  refine ⟨by decide!, by decide!, by decide!, by decide!, by decide!⟩

/-- Claim C2 counterexample: loading the two rows with blocks [1000, 0]
sorts them ascending but keeps the original index labels, so the row at
position 0 (block 0) differs from the row with ordinal label 0 (block
1000): `load_data` never reassigns a dense 0-based ordinal. -/
theorem load_data_index_not_reset :
    (dfGet (load_data raws2).rows 0).block = 0 ∧
      locGet (load_data raws2).rows 0 = some (rowOfRaw (mkRaw 1000)) ∧
      some (dfGet (load_data raws2).rows 0) ≠ locGet (load_data raws2).rows 0 := by
  refine ⟨by decide!, by decide!, by decide!⟩

/-- Claim C2 as amended: after `load_data` the rows are sorted ascending
by block, and the index labels are the original 0-based input positions
carried through the sort (a permutation of 0, …, n-1), not a reassigned
dense ordinal. -/
theorem load_data_sorted_by_block (raws : List RawRow) :
    ((load_data raws).rows).Sorted blockLE ∧
      ((load_data raws).rows.map Prod.fst).Perm (List.range raws.length) := by
  unfold load_data
  by_cases h : 1 < (raws.enum.map (fun p => (p.1, rowOfRaw p.2))).length
  · rw [if_pos h]
    constructor
    · exact List.sorted_insertionSort blockLE _
    · have hperm := List.perm_insertionSort blockLE
        (raws.enum.map (fun p => (p.1, rowOfRaw p.2)))
      have hmap := hperm.map Prod.fst
      have hfst : (raws.enum.map (fun p => (p.1, rowOfRaw p.2))).map Prod.fst =
          List.range raws.length := by
        rw [List.map_map]
        have : (Prod.fst ∘ fun p : ℕ × RawRow => (p.1, rowOfRaw p.2)) =
            Prod.fst := rfl
        rw [this, List.enum_map_fst]
      rw [hfst] at hmap
      exact hmap
  · rw [if_neg h]
    push_neg at h
    constructor
    · exact sorted_of_length_le_one h
    · have hfst : (raws.enum.map (fun p => (p.1, rowOfRaw p.2))).map Prod.fst =
          List.range raws.length := by
        rw [List.map_map]
        have : (Prod.fst ∘ fun p : ℕ × RawRow => (p.1, rowOfRaw p.2)) =
            Prod.fst := rfl
        rw [this, List.enum_map_fst]
      rw [hfst]

/-- Claim C6: for a bracketing pair with distinct block values,
interpolating at the before-row's block reproduces every blended field of
the before-row (factor 0), and interpolating at the after-row's block
reproduces every blended field of the after-row (factor 1). -/
theorem blendAt_endpoints (before after : Row)
    (h : before.block ≠ after.block) :
    blendedFields (blendAt before after before.block) = blendedFields before ∧
      blendedFields (blendAt before after after.block) = blendedFields after := by
  have hne : after.block - before.block ≠ 0 := sub_ne_zero.mpr (Ne.symm h)
  have hfac : (after.block - before.block) / (after.block - before.block) = 1 :=
    div_self hne
  constructor
  · simp [blendAt, interpFields, blendedFields, Ne.symm h]
  · simp [blendAt, interpFields, blendedFields, Ne.symm h, hfac]

/-- Witness for C6 at the concrete bracketing pair with blocks 0 and 1000. -/
theorem blendAt_endpoints_witness :
    blendedFields
        (blendAt (rowOfRaw wRawA) (rowOfRaw wRawB) (rowOfRaw wRawA).block) =
        blendedFields (rowOfRaw wRawA) ∧
      blendedFields
          (blendAt (rowOfRaw wRawA) (rowOfRaw wRawB) (rowOfRaw wRawB).block) =
        blendedFields (rowOfRaw wRawB) :=
  blendAt_endpoints (rowOfRaw wRawA) (rowOfRaw wRawB) (by decide!)

/-- Claim C8: every interpolation that reaches the blending step (at least
2 rows, positive interval, no IndexError fallback) produces a row whose
`block` equals the target exactly and whose `day` is recomputed as
`⌊target / BLOCKS_PER_DAY⌋`, the construction rule — neither is blended. -/
theorem interpolate_block_day_exact (df : DFrame) (interval t : ℚ)
    (_hint : 0 < interval) (h2 : 2 ≤ df.length)
    (hib : (bracket_idx df interval t).1 < df.length) :
    ∃ r, interpolate_data df interval t = some r ∧
      r.block = t ∧ r.day = ⌊t / BLOCKS_PER_DAY⌋ := by
  refine ⟨blendAt (dfGet df (bracket_idx df interval t).1)
      (dfGet df (bracket_idx df interval t).2) t, ?_, rfl, rfl⟩
  unfold interpolate_data
  rw [if_neg (by omega), if_neg (by omega), if_pos hib]

/-- Witness for C8 on the ten-row dataset at target 500. -/
theorem interpolate_block_day_exact_witness :
    ∃ r, interpolate_data (load_data raws10).rows (load_data raws10).interval
        500 = some r ∧
      r.block = 500 ∧ r.day = ⌊(500 : ℚ) / BLOCKS_PER_DAY⌋ :=
  interpolate_block_day_exact (load_data raws10).rows (load_data raws10).interval
    500 (by decide!) (by decide!) (by decide!)

/-- Claim C9: on an empty dataset (which `load_data` tags with the default
interval 1000) every lookup returns its defined sentinel instead of
raising: `get_frame_data` returns the empty Series, `find_current_value`
returns `None`, and the window extraction returns an empty window. -/
theorem empty_dataset_lookups (t M : ℚ) (col : Row → ℚ) :
    get_frame_data ([] : DFrame) 1000 t = none ∧
      find_current_value ([] : DFrame) 1000 t col = none ∧
      (optimize_chart_data ([] : DFrame) 1000 t M col).window_data = [] := by
  refine ⟨rfl, find_current_value_nil 1000 t col, ?_⟩
  simp [optimize_chart_data, sliceZ, downsample]

/-- Claim C10: downsampling a non-empty filtered window yields a non-empty
result whose first element is the window's first (lowest-block) row, since
the stride selection starts at position 0 with stride at least 1. -/
theorem downsample_keeps_head (w : DFrame) (h : w ≠ []) :
    downsample w ≠ [] ∧ (downsample w).head? = w.head? := by
  match w, h with
  | a :: t, _ =>
    unfold downsample
    split
    · rw [everyNth_cons]
      exact ⟨List.cons_ne_nil a _, rfl⟩
    · exact ⟨List.cons_ne_nil a t, rfl⟩

/-- Witness for C10 on a concrete two-row window. -/
theorem downsample_keeps_head_witness :
    downsample w2W ≠ [] ∧ (downsample w2W).head? = w2W.head? :=
  downsample_keeps_head w2W (by decide!)

/-- Claim C7: every row of the window returned by `optimize_chart_data`
(width `CHART_WINDOW_SIZE` around target `t`, dataset spanning up to
`max_block`) has its block inside
`[max(0, t - W/2), min(max_block, t + W/2)]`: the window is produced by
filtering to exactly that closed interval before downsampling. -/
theorem optimize_window_blocks_in_range (df : DFrame) (interval t M : ℚ)
    (col : Row → ℚ) (p : ℕ × Row) (_hint : 0 < interval)
    (hp : p ∈ (optimize_chart_data df interval t M col).window_data) :
    max 0 (t - (CHART_WINDOW_SIZE : ℚ) / 2) ≤ p.2.block ∧
      p.2.block ≤ min M (t + (CHART_WINDOW_SIZE : ℚ) / 2) := by
  have hhalf : ((CHART_WINDOW_SIZE / 2 : ℕ) : ℚ) = (CHART_WINDOW_SIZE : ℚ) / 2 := by
    norm_num [CHART_WINDOW_SIZE]
  simp only [optimize_chart_data] at hp
  have hp2 := (downsample_sublist _).subset hp
  obtain ⟨-, hcond⟩ := List.mem_filter.mp hp2
  have hcond' := of_decide_eq_true hcond
  rw [hhalf] at hcond'
  exact hcond'

/-- Witness for C7 on a one-row dataset at block 100 with target 100. -/
theorem optimize_window_blocks_in_range_witness :
    max 0 ((100 : ℚ) - (CHART_WINDOW_SIZE : ℚ) / 2) ≤
        (rowOfRaw (mkRaw 100)).block ∧
      (rowOfRaw (mkRaw 100)).block ≤
        min (100 : ℚ) (100 + (CHART_WINDOW_SIZE : ℚ) / 2) :=
  optimize_window_blocks_in_range df1W 1000 100 100 (fun r => r.exchange_rate)
    (0, rowOfRaw (mkRaw 100)) (by norm_num) (by decide!)

/-- Claim C4 counterexample: on the dataset loaded from 76 rows at blocks
0, 200, …, 15000 (detected interval 200), the chart window around target
7500 with max block 15000 keeps all 76 rows, and the downsampling stride
is `76 // 40 = 1`, so `optimize_chart_data` returns 76 rows — more than
`MAX_DATA_POINTS_PER_CHART = 40`. -/
theorem optimize_chart_data_exceeds_max_points :
    (optimize_chart_data (load_data raws76).rows (load_data raws76).interval
        7500 15000 (fun r => r.exchange_rate)).window_data.length = 76 ∧
      ¬ (optimize_chart_data (load_data raws76).rows (load_data raws76).interval
          7500 15000 (fun r => r.exchange_rate)).window_data.length ≤
        MAX_DATA_POINTS_PER_CHART := by
  refine ⟨by decide!, by decide!⟩

/-- Claim C4 as amended: the downsampling step is the identity on windows
of at most `MAX_DATA_POINTS_PER_CHART` rows, preserves ascending block
order, and returns at most `2 * MAX_DATA_POINTS_PER_CHART - 1` rows — with
stride `⌊count / max_points⌋` the output can exceed `max_points`, but
never reaches twice it. -/
theorem downsample_bounded_ordered_noop (w : DFrame) :
    (w.length ≤ MAX_DATA_POINTS_PER_CHART → downsample w = w) ∧
      (List.Pairwise blockLE w → List.Pairwise blockLE (downsample w)) ∧
      (downsample w).length ≤ 2 * MAX_DATA_POINTS_PER_CHART - 1 := by
  refine ⟨fun hle => ?_, fun hp => hp.sublist (downsample_sublist w), ?_⟩
  · unfold downsample
    rw [if_neg (by omega)]
  · unfold downsample
    split
    · rename_i hgt
      simp only [MAX_DATA_POINTS_PER_CHART] at hgt ⊢
      have hn : 1 ≤ w.length / 40 := by omega
      obtain ⟨h1, h2⟩ := everyNth_length_bounds w (w.length / 40) hn
      have h2' := h2 (by omega)
      generalize hL : w.length = L at *
      generalize hcc : (everyNth w (L / 40)).length = c at *
      generalize hnn : L / 40 = n at *
      have hub : L < 40 * (n + 1) := by omega
      rcases Nat.lt_or_ge n 2 with hn2 | hn2
      · have hn1 : n = 1 := by omega
        rw [hn1, one_mul] at h2'
        omega
      · have h60 : n * (c - 1) < 60 * n := by
          calc n * (c - 1) < L := h2'
            _ < 40 * (n + 1) := hub
            _ ≤ 60 * n := by omega
        have hlt : c - 1 < 60 := by
          by_contra hcon
          push_neg at hcon
          have := Nat.mul_le_mul_left n hcon
          omega
        omega
    · rename_i hle
      simp only [MAX_DATA_POINTS_PER_CHART] at hle ⊢
      omega

/-- Witness for C4 (amended) on a concrete two-row sorted window. -/
theorem downsample_bounded_ordered_noop_witness :
    downsample w2W = w2W ∧ List.Pairwise blockLE (downsample w2W) ∧
      (downsample w2W).length ≤ 2 * MAX_DATA_POINTS_PER_CHART - 1 :=
  ⟨(downsample_bounded_ordered_noop w2W).1 (by decide!),
   (downsample_bounded_ordered_noop w2W).2.1 (by decide!),
   (downsample_bounded_ordered_noop w2W).2.2⟩

end AlphaVisualizer
